import Mathlib

/-!
Verification of the cos-tools repository's behaviour-defining code:
the changelog test helpers (`src/cmd/changelog/main_test.py`) and the
image re-tagging utility (`release/release.py`), together with models
of the changelog/findbuild engine described by the specification
(the Go implementation is outside the available sources, so those
parts are modelled from the spec).
-/

namespace CosTools

/-- JSON values as produced by Python's `json.load`: strings, numbers
(modelled as integers; the artifacts contain no fractional numbers),
booleans, null, arrays and objects (ordered key/value lists with the
unique-key discipline of Python dicts). -/
inductive JValue where
  | str (s : String)
  | num (n : Int)
  | bool (b : Bool)
  | null
  | arr (elems : List JValue)
  | obj (fields : List (String × JValue))

/-- Python slice `s[i:]` where `i` may be negative: a negative index
counts from the end of the string and is clamped at 0; a nonnegative
index is clamped at the length. -/
def pySuffixFrom (s : String) (i : Int) : String :=
  let n : Int := s.length
  let start : Int := if i < 0 then max (n + i) 0 else min i n
  String.mk (s.data.drop start.toNat)

/-- Python slice `s[:n]` for nonnegative `n` (clamped at the length). -/
def pyTake (s : String) (n : Nat) : String :=
  String.mk (s.data.take n)

/-- `get_filename` from `main_test.py`: the artifact filename for a
(source, target) direction. -/
def get_filename (source target : String) : String :=
  source ++ " -> " ++ target ++ ".json"

/-- Python `isinstance(v, str)` on a JSON value. -/
def isStr : JValue → Bool
  | JValue.str _ => true
  | _ => false

/-- Python `isinstance(v, list)` on a JSON value. -/
def isList : JValue → Bool
  | JValue.arr _ => true
  | _ => false

/-- The `schema` dict of `check_commit_schema` in `main_test.py`, in
insertion order: field name paired with its `isinstance` type check. -/
def commitSchemaFields : List (String × (JValue → Bool)) :=
  [("SHA", isStr), ("AuthorName", isStr), ("CommitterName", isStr),
   ("Subject", isStr), ("Bugs", isList), ("CommitTime", isStr),
   ("ReleaseNote", isStr)]

/-- One iteration of the loop of `check_commit_schema`: the commit
object must contain the key and its value must pass the `isinstance`
check; missing key or wrong type is False. -/
def checkField (commit : List (String × JValue))
    (p : String × (JValue → Bool)) : Bool :=
  match commit.lookup p.1 with
  | none => false
  | some v => p.2 v

/-- `check_commit_schema` from `main_test.py`: every schema field must
be present with the type its `isinstance` check demands. -/
def check_commit_schema (commit : List (String × JValue)) : Bool :=
  commitSchemaFields.all (checkField commit)

/-- Per-commit loop of `check_changelog_schema`: each element of a
repository's `Commits` array is checked with `check_commit_schema`.
A non-object element is outside the modelled domain (Python's `in`
operator would mean substring or element membership there) and yields
`none`. -/
def checkCommitList : List JValue → Option Bool
  | [] => some true
  | JValue.obj kvs :: rest =>
      if check_commit_schema kvs then checkCommitList rest else some false
  | _ :: _ => none

/-- Per-repository loop of `check_changelog_schema`: each value of the
artifact object must be an object with a `Commits` key holding an
array (a missing key raises `KeyError` in Python, a non-object value
raises `TypeError`; both are modelled as `none`). -/
def checkRepoList : List (String × JValue) → Option Bool
  | [] => some true
  | (_, JValue.obj kvs) :: rest =>
      match kvs.lookup "Commits" with
      | some (JValue.arr commits) =>
          match checkCommitList commits with
          | some true => checkRepoList rest
          | r => r
      | _ => none
  | _ :: _ => none

/-- `check_changelog_schema` from `main_test.py`, applied to the parsed
JSON object of an artifact file (file opening and `json.load` are
external): an empty object returns False immediately; otherwise every
commit of every repository must pass `check_commit_schema`. -/
def check_changelog_schema (data : List (String × JValue)) : Option Bool :=
  if data.length = 0 then some false else checkRepoList data

/-- The expected structured log message `msg="Build: <version>"` built
by `verify_build_output`. -/
def buildLogMessage (expectedBuild : String) : String :=
  "msg=\"Build: " ++ expectedBuild ++ "\""

/-- `verify_build_output` from `main_test.py`: split stderr on newlines,
require at least two lines, and compare the trailing slice of the
second-to-last line against the expected log message. -/
def verify_build_output (stderr expectedBuild : String) : Bool :=
  let lines := stderr.split (fun c => c == '\n')
  if lines.length < 2 then false
  else
    let last_line := lines.getD (lines.length - 2) ""
    let expectedLogMessage := buildLogMessage expectedBuild
    pySuffixFrom last_line ((last_line.length : Int) - expectedLogMessage.length)
      == expectedLogMessage

/-- `_SBOM_TAG` from `release.py`. -/
def sbomTag : String := "sbom"

/-- `_COS_GPU_INSTALLER_STAGING_NAME` from `release.py`. -/
def cosGpuInstallerStagingName : String := "cos-gpu-installer"

/-- The four keys `validate_config` asserts on every config entry. -/
def requiredReleaseKeys : List String :=
  ["staging_container_name", "release_container_name", "build_commit",
   "release_tags"]

/-- `validate_config` from `release.py`: `true` means the function
completes without raising; `false` means some entry is missing one of
the four required keys, so the `assert` raises `AssertionError`. -/
def validate_config (release_config : List (List (String × JValue))) : Bool :=
  release_config.all fun release_container =>
    requiredReleaseKeys.all fun key => (release_container.lookup key).isSome

/-- `validate_src_gcr_path` from `release.py`. -/
def validate_src_gcr_path (path : String) : Bool :=
  decide ("gcr.io/".length < path.length)
    && (pyTake path "gcr.io/".length == "gcr.io/")

/-- `validate_dst_gcr_path` from `release.py`: split on `/`, require
exactly three components, the first longer than `"docker.pkg.dev/"`,
the second non-empty, and the third whose trailing slice of six
characters equals `"gcr.io"`. -/
def validate_dst_gcr_path (path : String) : Bool :=
  let parts := path.split (fun c => c == '/')
  decide (parts.length = 3)
    && decide ("docker.pkg.dev/".length < (parts.getD 0 "").length)
    && (parts.getD 1 "").length != 0
    && (pySuffixFrom (parts.getD 2 "") (-("gcr.io".length : Int)) == "gcr.io")

/-- Python `os.path.join` on POSIX for two components, as used in
`release.py`. -/
def pyPathJoin (a b : String) : String :=
  if b.startsWith "/" then b
  else if a = "" then b
  else if a.endsWith "/" then a ++ b
  else a ++ "/" ++ b

/-- `add_tag_for_sbom` from `release.py`, modelling effects explicitly:
the result is `none` when the `assert` on the source bucket raises,
and otherwise `some cmds` where `cmds` lists the registry-CLI
invocations performed (each as its argument vector). A staging name
other than `cos-gpu-installer` returns immediately with no command
and no assertion evaluated. -/
def add_tag_for_sbom (src_bucket staging_container_name
    release_container_name build_tag : String) : Option (List (List String)) :=
  if staging_container_name ≠ cosGpuInstallerStagingName then some []
  else if validate_src_gcr_path src_bucket then
    let src_path := pyPathJoin src_bucket staging_container_name
    let dst_path := pyPathJoin src_bucket release_container_name
    some [["gcloud", "container", "images", "add-tag",
           src_path ++ ":" ++ build_tag, dst_path ++ ":" ++ sbomTag, "-q"]]
  else none

/-- Modelled from the spec: a Commit of the data model (§3) and the
commit JSON schema (§6) — seven fields, always present; the bug list
and the release note may be empty. The Go changelog engine is not
among the available sources; these definitions follow the spec. -/
structure Commit where
  sha : String
  authorName : String
  committerName : String
  subject : String
  bugs : List String
  commitTime : String
  releaseNote : String

/-- Modelled from the spec: a Manifest (§3) maps repository names
(unique keys) to pinned revisions for one build version. -/
abbrev Manifest := List (String × String)

/-- A JSON string literal (the artifact strings at hand need no
escaping). -/
def jquote (s : String) : String := "\"" ++ s ++ "\""

/-- Modelled from the spec: JSON rendering of one commit in the fixed
seven-field schema of §6. -/
def renderCommit (c : Commit) : String :=
  "\x7b\"SHA\": " ++ jquote c.sha
    ++ ", \"AuthorName\": " ++ jquote c.authorName
    ++ ", \"CommitterName\": " ++ jquote c.committerName
    ++ ", \"Subject\": " ++ jquote c.subject
    ++ ", \"Bugs\": [" ++ String.intercalate ", " (c.bugs.map jquote) ++ "]"
    ++ ", \"CommitTime\": " ++ jquote c.commitTime
    ++ ", \"ReleaseNote\": " ++ jquote c.releaseNote ++ "\x7d"

/-- Modelled from the spec: JSON rendering of one repository's entry
`"repo": {"Commits": [...]}` in an artifact (§6). -/
def renderRepoLog (rl : String × List Commit) : String :=
  jquote rl.1 ++ ": \x7b\"Commits\": ["
    ++ String.intercalate ", " (rl.2.map renderCommit) ++ "]\x7d"

/-- Modelled from the spec: the JSON text written for one directional
artifact; an artifact with no entries is the literal empty object
(§6). -/
def renderArtifact (entry : List (String × List Commit)) : String :=
  "\x7b" ++ String.intercalate ", " (entry.map renderRepoLog) ++ "\x7d"

/-- Modelled from the spec: the Manifest Differ (§4.2) for one
direction. `walker repo fromRev toRev` is the Commit History Walker:
the commits reachable from `toRev` but not from `fromRev`, newest
first (`fromRev = none` for a repository present only in the target
manifest — walked up to the root boundary). Equal pinned revisions
contribute nothing; a repository whose walk yields no commit does not
appear in the output (§8: the reverse direction of a fast-forward is
exactly empty). -/
def diffDirection (walker : String → Option String → String → List Commit)
    (src tgt : Manifest) : List (String × List Commit) :=
  tgt.filterMap fun p =>
    let commits :=
      match src.lookup p.1 with
      | some rev => if rev = p.2 then [] else walker p.1 (some rev) p.2
      | none => walker p.1 none p.2
    if commits.isEmpty then none else some (p.1, commits)

/-- Modelled from the spec: the changelog command (§4.6, §6, §7).
`fetch` is the Manifest Fetcher, `none` when no snapshot exists for a
version (`InvalidVersion`). On success the result lists the two files
written, as (filename, contents) pairs; on any failure the command
exits non-zero and writes no file. -/
def changelogRun (fetch : String → Option Manifest)
    (walker : String → Option String → String → List Commit)
    (source target : String) : Except String (List (String × String)) :=
  match fetch source, fetch target with
  | some srcM, some tgtM =>
      Except.ok
        [(get_filename source target,
          renderArtifact (diffDirection walker srcM tgtM)),
         (get_filename target source,
          renderArtifact (diffDirection walker tgtM srcM))]
  | _, _ => Except.error "InvalidVersion"

/-- Modelled from the spec: the files persisted by a changelog run —
none on failure, since writing is atomic relative to the success of
the whole computation (§7). -/
def writtenFiles (r : Except String (List (String × String))) :
    List (String × String) :=
  match r with
  | Except.ok fs => fs
  | Except.error _ => []

/-- Modelled from the spec: the state of a change on a review host
(§4.4): merged, abandoned, or under review. -/
inductive ChangeState where
  | merged
  | abandoned
  | underReview
deriving DecidableEq

/-- Modelled from the spec: one change matching a ChangeSpec on a
review host, with its repository, canonical commit and state. -/
structure HostChange where
  repo : String
  commitHash : String
  state : ChangeState

/-- Modelled from the spec: the (repository, canonical commit) pair a
successful resolution yields (§3). -/
structure ResolvedChange where
  repo : String
  commitHash : String

/-- Modelled from the spec: the terminal resolution failures of §4.4
and §7. -/
inductive ResolutionError where
  | notFound
  | changeNotMerged
  | ambiguousChange

/-- Modelled from the spec: the Change Resolver (§4.4) against one
review host. `lookup` returns every change matching the ChangeSpec on
the host. No match fails; a single unmerged match fails with
`ChangeNotMerged`; several matches fail with `AmbiguousChange` unless
exactly one of them is merged. -/
def resolveChange (lookup : String → List HostChange) (change : String) :
    Except ResolutionError ResolvedChange :=
  match lookup change with
  | [] => Except.error ResolutionError.notFound
  | [c] =>
      if c.state = ChangeState.merged then Except.ok ⟨c.repo, c.commitHash⟩
      else Except.error ResolutionError.changeNotMerged
  | cs =>
      match cs.filter (fun c => c.state == ChangeState.merged) with
      | [c] => Except.ok ⟨c.repo, c.commitHash⟩
      | _ => Except.error ResolutionError.ambiguousChange

/-- Modelled from the spec: the findbuild command (§6). On successful
resolution and build location it writes the structured log line
`msg="Build: <version>"` to the error stream and exits 0; any
resolution or lookup failure exits non-zero and emits no such line.
The result pairs the exit outcome with the list of log lines
emitted. -/
def findbuildRun (lookup : String → List HostChange)
    (locate : ResolvedChange → Option String) (change : String) :
    Except String String × List String :=
  match resolveChange lookup change with
  | Except.error ResolutionError.notFound => (Except.error "ChangeNotFound", [])
  | Except.error ResolutionError.changeNotMerged =>
      (Except.error "ChangeNotMerged", [])
  | Except.error ResolutionError.ambiguousChange =>
      (Except.error "AmbiguousChange", [])
  | Except.ok rc =>
      match locate rc with
      | none => (Except.error "BuildNotFound", [])
      | some v => (Except.ok v, [buildLogMessage v])

/-! ## Helper lemmas -/

theorem checkField_isStr (commit : List (String × JValue)) (k : String) :
    checkField commit (k, isStr) = true ↔
      ∃ s, commit.lookup k = some (JValue.str s) := by
  unfold checkField
  cases h : commit.lookup k with
  | none => simp
  | some v => cases v <;> simp [isStr]

theorem checkField_isList (commit : List (String × JValue)) (k : String) :
    checkField commit (k, isList) = true ↔
      ∃ xs, commit.lookup k = some (JValue.arr xs) := by
  unfold checkField
  cases h : commit.lookup k with
  | none => simp
  | some v => cases v <;> simp [isList]

theorem data_mk (l : List Char) : (String.mk l).data = l := rfl

theorem drop_eq_iff_suffix {sd td : List Char} :
    sd.drop (sd.length - td.length) = td ↔ td <:+ sd := by
  rw [List.suffix_iff_eq_drop, eq_comm]

theorem pySuffixFrom_end_beq (s t : String) :
    (pySuffixFrom s ((s.length : Int) - t.length) == t) = true ↔
      t.data <:+ s.data := by
  rcases s with ⟨sd⟩
  rcases t with ⟨td⟩
  simp only [beq_iff_eq, String.ext_iff, pySuffixFrom, String.length_mk,
             data_mk]
  by_cases h : td.length ≤ sd.length
  · rw [if_neg (by omega : ¬ ((sd.length : Int) - td.length < 0)),
        min_eq_left (by omega : (sd.length : Int) - td.length ≤ (sd.length : Int)),
        (by omega : ((sd.length : Int) - (td.length : Int)).toNat = sd.length - td.length)]
    exact drop_eq_iff_suffix
  · constructor
    · intro he
      have hlen := congrArg List.length he
      rw [List.length_drop] at hlen
      omega
    · intro hsuf
      have := hsuf.length_le
      omega

theorem pySuffixFrom_neg_beq (s t : String) (htpos : 0 < t.length) :
    (pySuffixFrom s (-(t.length : Int)) == t) = true ↔ t.data <:+ s.data := by
  rcases s with ⟨sd⟩
  rcases t with ⟨td⟩
  simp only [String.length_mk] at htpos
  simp only [beq_iff_eq, String.ext_iff, pySuffixFrom, String.length_mk,
             data_mk]
  rw [if_pos (by omega : -((td.length : Nat) : Int) < 0)]
  by_cases h : td.length ≤ sd.length
  · rw [max_eq_left (by omega : (0 : Int) ≤ (sd.length : Int) + -(td.length : Int)),
        (by omega : ((sd.length : Int) + -(td.length : Int)).toNat = sd.length - td.length)]
    exact drop_eq_iff_suffix
  · constructor
    · intro he
      have hlen := congrArg List.length he
      rw [List.length_drop] at hlen
      omega
    · intro hsuf
      have := hsuf.length_le
      omega

theorem string_eq_empty_iff (s : String) : s.length = 0 ↔ s = "" := by
  constructor
  · intro h
    exact String.ext (by simpa using List.length_eq_zero.mp h)
  · intro h
    subst h
    rfl

/-! ## Claims about the changelog test helpers and the release utility -/

/-- C4: for every pair of version strings SOURCE and TARGET, the two
changelog artifact filenames computed by `get_filename` are exactly
the concatenations `SOURCE ++ " -> " ++ TARGET ++ ".json"` and
`TARGET ++ " -> " ++ SOURCE ++ ".json"`. -/
theorem claim_get_filename (source target : String) :
    get_filename source target = source ++ " -> " ++ target ++ ".json" ∧
    get_filename target source = target ++ " -> " ++ source ++ ".json" :=
  ⟨rfl, rfl⟩

/-- C8: `validate_config` completes without raising (returns true)
iff every entry of the config list contains all four keys
`staging_container_name`, `release_container_name`, `build_commit`
and `release_tags`; a missing key makes the `assert` raise. -/
theorem claim_validate_config (release_config : List (List (String × JValue))) :
    validate_config release_config = true ↔
      ∀ entry ∈ release_config,
        ((∃ v, entry.lookup "staging_container_name" = some v) ∧
         (∃ v, entry.lookup "release_container_name" = some v) ∧
         (∃ v, entry.lookup "build_commit" = some v) ∧
         (∃ v, entry.lookup "release_tags" = some v)) := by
  simp [validate_config, requiredReleaseKeys, Option.isSome_iff_exists]

/-- C10: `add_tag_for_sbom` with a staging name different from
`cos-gpu-installer` returns immediately: no registry-CLI invocation
and no assertion failure, whatever the source bucket; a CLI
invocation happens only when the staging name is `cos-gpu-installer`. -/
theorem claim_add_tag_for_sbom (src_bucket staging_container_name
    release_container_name build_tag : String) :
    (staging_container_name ≠ cosGpuInstallerStagingName →
      add_tag_for_sbom src_bucket staging_container_name
        release_container_name build_tag = some []) ∧
    (∀ cmds, add_tag_for_sbom src_bucket staging_container_name
        release_container_name build_tag = some cmds → cmds ≠ [] →
      staging_container_name = cosGpuInstallerStagingName) := by
  constructor
  · intro h
    simp [add_tag_for_sbom, h]
  · intro cmds hc hne
    by_contra hs
    simp [add_tag_for_sbom, hs] at hc
    exact hne hc

/-- Witness for C10 at a concrete input: an empty (invalid) source
bucket and a non-installer staging name still return with no
command. -/
theorem claim_add_tag_for_sbom_witness :
    add_tag_for_sbom "" "other-image" "rel-image" "tag123" = some [] :=
  (claim_add_tag_for_sbom "" "other-image" "rel-image" "tag123").1 (by decide)

/-- C1 is false as stated: a commit object whose `Bugs` array holds a
non-string element passes `check_commit_schema`, which checks only
that `Bugs` is a list, never its element types. -/
theorem claim_check_commit_schema_counterexample :
    check_commit_schema
        [("SHA", JValue.str "abc"), ("AuthorName", JValue.str "an"),
         ("CommitterName", JValue.str "cn"), ("Subject", JValue.str "subj"),
         ("Bugs", JValue.arr [JValue.num 123]), ("CommitTime", JValue.str "t"),
         ("ReleaseNote", JValue.str "")] = true ∧
    List.lookup "Bugs"
        [("SHA", JValue.str "abc"), ("AuthorName", JValue.str "an"),
         ("CommitterName", JValue.str "cn"), ("Subject", JValue.str "subj"),
         ("Bugs", JValue.arr [JValue.num 123]), ("CommitTime", JValue.str "t"),
         ("ReleaseNote", JValue.str "")] = some (JValue.arr [JValue.num 123]) ∧
    [JValue.num 123].all isStr = false :=
  ⟨rfl, rfl, rfl⟩

/-- C1 (amended): `check_commit_schema commit` returns true iff the
object contains all seven required fields, the six non-Bugs fields
are strings and `Bugs` is an array — the element types of `Bugs` are
not checked. -/
theorem claim_check_commit_schema (commit : List (String × JValue)) :
    check_commit_schema commit = true ↔
      ((∃ s, commit.lookup "SHA" = some (JValue.str s)) ∧
       (∃ s, commit.lookup "AuthorName" = some (JValue.str s)) ∧
       (∃ s, commit.lookup "CommitterName" = some (JValue.str s)) ∧
       (∃ s, commit.lookup "Subject" = some (JValue.str s)) ∧
       (∃ xs, commit.lookup "Bugs" = some (JValue.arr xs)) ∧
       (∃ s, commit.lookup "CommitTime" = some (JValue.str s)) ∧
       (∃ s, commit.lookup "ReleaseNote" = some (JValue.str s))) := by
  simp [check_commit_schema, commitSchemaFields, checkField_isStr,
        checkField_isList]

/-- C5: `verify_build_output stderr B` returns true iff stderr split
on newlines has at least two lines and the second-to-last line ends
with the exact string `msg="Build: B"`. -/
theorem claim_verify_build_output (stderr expectedBuild : String) :
    verify_build_output stderr expectedBuild = true ↔
      (2 ≤ (stderr.split (fun c => c == '\n')).length ∧
       (buildLogMessage expectedBuild).data <:+
         ((stderr.split (fun c => c == '\n')).getD
           ((stderr.split (fun c => c == '\n')).length - 2) "").data) := by
  simp only [verify_build_output]
  by_cases h : (stderr.split (fun c => c == '\n')).length < 2
  · rw [if_pos h]
    constructor
    · intro hf
      cases hf
    · rintro ⟨h2, -⟩
      omega
  · rw [if_neg h, pySuffixFrom_end_beq]
    have h2 : 2 ≤ (stderr.split (fun c => c == '\n')).length := by omega
    simp [h2]

/-- C9: `validate_dst_gcr_path path` returns true iff path splits on
`/` into exactly three components, the first strictly longer than the
15-character string `docker.pkg.dev/`, the second non-empty, and the
third ending with `gcr.io`; nothing else about the components is
checked. -/
theorem claim_validate_dst_gcr_path (path : String) :
    validate_dst_gcr_path path = true ↔
      ((path.split (fun c => c == '/')).length = 3 ∧
       15 < ((path.split (fun c => c == '/')).getD 0 "").length ∧
       (path.split (fun c => c == '/')).getD 1 "" ≠ "" ∧
       "gcr.io".data <:+ ((path.split (fun c => c == '/')).getD 2 "").data) := by
  have h15 : "docker.pkg.dev/".length = 15 := rfl
  simp only [validate_dst_gcr_path, Bool.and_eq_true, decide_eq_true_eq,
             bne_iff_ne, ne_eq, h15,
             pySuffixFrom_neg_beq _ "gcr.io" (by decide)]
  rw [← string_eq_empty_iff]
  tauto

/-! ## Claims about the modelled changelog engine -/

theorem lookup_eq_of_mem {l : List (String × String)} {p : String × String}
    (hmem : p ∈ l) (hnd : (l.map Prod.fst).Nodup) : l.lookup p.1 = some p.2 := by
  induction l with
  | nil => cases hmem
  | cons q rest ih =>
    simp only [List.map_cons, List.nodup_cons, List.mem_map] at hnd
    rcases List.mem_cons.mp hmem with h | h
    · subst h
      simp [List.lookup]
    · have hne : p.1 ≠ q.1 := by
        intro he
        exact hnd.1 ⟨p, h, he⟩
      have hbeq : (p.1 == q.1) = false := by simpa using hne
      simp only [List.lookup, hbeq]
      exact ih h hnd.2

theorem diffDirection_self (walker : String → Option String → String → List Commit)
    (m : Manifest) (hkeys : (m.map Prod.fst).Nodup) :
    diffDirection walker m m = [] := by
  rw [diffDirection, List.filterMap_eq_nil_iff]
  intro p hp
  simp [lookup_eq_of_mem hp hkeys]

/-- C2: for every build version V that has a snapshot, running
changelog with source V and target V succeeds and writes two artifact
files whose contents are each exactly the two-character string
consisting of the empty JSON object. -/
theorem claim_changelog_same_version (fetch : String → Option Manifest)
    (walker : String → Option String → String → List Commit)
    (v : String) (m : Manifest) (hm : fetch v = some m)
    (hkeys : (m.map Prod.fst).Nodup) :
    changelogRun fetch walker v v =
      Except.ok [(get_filename v v, "\x7b\x7d"),
                 (get_filename v v, "\x7b\x7d")] := by
  have hempty : renderArtifact [] = "\x7b\x7d" := rfl
  simp [changelogRun, hm, diffDirection_self walker m hkeys, hempty]

/-- Witness for C2: a concrete fetcher and a walker that would report
commits if it were consulted; for equal source and target nothing is
walked and both artifacts are empty. -/
theorem claim_changelog_same_version_witness :
    changelogRun (fun _ => some [("cos/repoA", "rev1"), ("cos/repoB", "rev2")])
        (fun _ _ _ => [⟨"sha1", "a", "c", "subj", [], "time", ""⟩])
        "15056.0.0" "15056.0.0" =
      Except.ok [(get_filename "15056.0.0" "15056.0.0", "\x7b\x7d"),
                 (get_filename "15056.0.0" "15056.0.0", "\x7b\x7d")] :=
  claim_changelog_same_version _ _ _ _ rfl (by simp)

/-- C6: a changelog invocation whose source or target version has no
snapshot exits non-zero and persists no artifact file at all. -/
theorem claim_changelog_invalid_version (fetch : String → Option Manifest)
    (walker : String → Option String → String → List Commit)
    (source target : String)
    (h : fetch source = none ∨ fetch target = none) :
    (∃ e, changelogRun fetch walker source target = Except.error e) ∧
    writtenFiles (changelogRun fetch walker source target) = [] := by
  rcases h with h | h
  · constructor
    · exact ⟨"InvalidVersion", by simp [changelogRun, h]⟩
    · simp [changelogRun, h, writtenFiles]
  · cases hs : fetch source with
    | none =>
      constructor
      · exact ⟨"InvalidVersion", by simp [changelogRun, hs]⟩
      · simp [changelogRun, hs, writtenFiles]
    | some m =>
      constructor
      · exact ⟨"InvalidVersion", by simp [changelogRun, hs, h]⟩
      · simp [changelogRun, hs, h, writtenFiles]

/-- Witness for C6: with no snapshot for the source version the run
fails and the list of persisted files is empty. -/
theorem claim_changelog_invalid_version_witness :
    (∃ e, changelogRun (fun _ => none) (fun _ _ _ => [])
        "99999.0.0" "15040.0.0" = Except.error e) ∧
    writtenFiles (changelogRun (fun _ => none) (fun _ _ _ => [])
        "99999.0.0" "15040.0.0") = [] :=
  claim_changelog_invalid_version _ _ _ _ (Or.inl rfl)

/-- C7: a ChangeSpec that is abandoned, under review, or an ambiguous
bare change-id (several matches without exactly one merged) makes
findbuild exit non-zero, yields no ResolvedChange, and emits no
`msg="Build: ..."` log line. -/
theorem claim_findbuild_unmerged (lookup : String → List HostChange)
    (locate : ResolvedChange → Option String) (change : String)
    (h : (∀ c ∈ lookup change, c.state ≠ ChangeState.merged) ∨
         (2 ≤ (lookup change).length ∧
          ((lookup change).filter
            (fun c => c.state == ChangeState.merged)).length ≠ 1)) :
    (∃ e, resolveChange lookup change = Except.error e) ∧
    (∃ e, (findbuildRun lookup locate change).1 = Except.error e) ∧
    (findbuildRun lookup locate change).2 = [] := by
  have hres : ∃ e, resolveChange lookup change = Except.error e := by
    cases hl : lookup change with
    | nil => exact ⟨ResolutionError.notFound, by simp [resolveChange, hl]⟩
    | cons c rest =>
      cases rest with
      | nil =>
        rcases h with h | h
        · have hc : c.state ≠ ChangeState.merged := h c (by simp [hl])
          exact ⟨ResolutionError.changeNotMerged,
                 by simp [resolveChange, hl, hc]⟩
        · rw [hl] at h
          simp at h
      | cons c2 rest2 =>
        rcases h with h | h
        · have hf : (c :: c2 :: rest2).filter
              (fun x => x.state == ChangeState.merged) = [] := by
            rw [List.filter_eq_nil_iff]
            intro a ha
            have := h a (by rw [hl]; exact ha)
            simpa using this
          exact ⟨ResolutionError.ambiguousChange,
                 by simp [resolveChange, hl, hf]⟩
        · rw [hl] at h
          obtain ⟨-, hne⟩ := h
          cases hfl : (c :: c2 :: rest2).filter
              (fun x => x.state == ChangeState.merged) with
          | nil =>
            exact ⟨ResolutionError.ambiguousChange,
                   by simp [resolveChange, hl, hfl]⟩
          | cons d drest =>
            cases drest with
            | nil =>
              rw [hfl] at hne
              simp at hne
            | cons d2 drest2 =>
              exact ⟨ResolutionError.ambiguousChange,
                     by simp [resolveChange, hl, hfl]⟩
  obtain ⟨e, he⟩ := hres
  refine ⟨⟨e, he⟩, ?_, ?_⟩ <;> cases e <;> simp [findbuildRun, he]

/-- Witness for C7: a single abandoned change is never resolved, the
run fails, and no log line is emitted. -/
theorem claim_findbuild_unmerged_witness :
    (∃ e, resolveChange
        (fun _ => [⟨"cos/repo", "deadbeef", ChangeState.abandoned⟩]) "3743"
        = Except.error e) ∧
    (∃ e, (findbuildRun
        (fun _ => [⟨"cos/repo", "deadbeef", ChangeState.abandoned⟩])
        (fun _ => some "12371.1072.0") "3743").1 = Except.error e) ∧
    (findbuildRun
        (fun _ => [⟨"cos/repo", "deadbeef", ChangeState.abandoned⟩])
        (fun _ => some "12371.1072.0") "3743").2 = [] :=
  claim_findbuild_unmerged _ _ _ (Or.inl (by decide))

/-! ## The artifact-level schema checker -/

theorem checkCommitList_isSome (commits : List JValue)
    (hs : ∀ c ∈ commits, ∃ ckvs, c = JValue.obj ckvs) :
    checkCommitList commits = some true ∨
    checkCommitList commits = some false := by
  induction commits with
  | nil => simp [checkCommitList]
  | cons c rest ih =>
    obtain ⟨ckvs, rfl⟩ := hs c (List.mem_cons_self c rest)
    have ih' := ih (fun x hx => hs x (List.mem_cons_of_mem _ hx))
    simp only [checkCommitList]
    by_cases hc : check_commit_schema ckvs = true
    · rw [if_pos hc]
      exact ih'
    · rw [if_neg hc]
      right
      rfl

theorem checkCommitList_eq_true (commits : List JValue)
    (hs : ∀ c ∈ commits, ∃ ckvs, c = JValue.obj ckvs) :
    (checkCommitList commits = some true ↔
      ∀ c ∈ commits, ∀ ckvs, c = JValue.obj ckvs →
        check_commit_schema ckvs = true) := by
  induction commits with
  | nil => simp [checkCommitList]
  | cons c rest ih =>
    obtain ⟨ckvs, rfl⟩ := hs c (List.mem_cons_self c rest)
    have ih' := ih (fun x hx => hs x (List.mem_cons_of_mem _ hx))
    simp only [checkCommitList]
    by_cases hc : check_commit_schema ckvs = true
    · rw [if_pos hc, ih']
      constructor
      · intro hrest x hx ckvs0 hx0
        rcases List.mem_cons.mp hx with he | hm
        · subst he
          injection hx0 with h0
          subst h0
          exact hc
        · exact hrest x hm ckvs0 hx0
      · intro hall x hx ckvs0 hx0
        exact hall x (List.mem_cons_of_mem _ hx) ckvs0 hx0
    · rw [if_neg hc]
      constructor
      · intro hfalse
        simp at hfalse
      · intro hall
        exact absurd (hall _ (List.mem_cons_self _ _) ckvs rfl) hc

theorem checkRepoList_eq_true (data : List (String × JValue))
    (hs : ∀ p ∈ data, ∃ kvs, p.2 = JValue.obj kvs ∧
            ∃ commits, kvs.lookup "Commits" = some (JValue.arr commits) ∧
              ∀ c ∈ commits, ∃ ckvs, c = JValue.obj ckvs) :
    (checkRepoList data = some true ↔
      ∀ p ∈ data, ∀ kvs, p.2 = JValue.obj kvs →
        ∀ commits, kvs.lookup "Commits" = some (JValue.arr commits) →
          ∀ c ∈ commits, ∀ ckvs, c = JValue.obj ckvs →
            check_commit_schema ckvs = true) := by
  induction data with
  | nil => simp [checkRepoList]
  | cons p rest ih =>
    obtain ⟨kvs, hp2, commits, hcl, hcs⟩ := hs p (List.mem_cons_self p rest)
    have ih' := ih (fun x hx => hs x (List.mem_cons_of_mem _ hx))
    obtain ⟨pn, pv⟩ := p
    simp only at hp2
    subst hp2
    simp only [checkRepoList, hcl]
    rcases checkCommitList_isSome commits hcs with hcc | hcc
    · rw [hcc, ih']
      have hgood := (checkCommitList_eq_true commits hcs).mp hcc
      constructor
      · intro hrest x hx kvs0 hkvs0 commits0 hcl0 c hc0 ckvs0 hobj
        rcases List.mem_cons.mp hx with he | hm
        · subst he
          simp only at hkvs0
          injection hkvs0 with h0
          subst h0
          rw [hcl] at hcl0
          injection hcl0 with h1
          injection h1 with h2
          subst h2
          exact hgood c hc0 ckvs0 hobj
        · exact hrest x hm kvs0 hkvs0 commits0 hcl0 c hc0 ckvs0 hobj
      · intro hall x hx kvs0 hkvs0 commits0 hcl0 c hc0 ckvs0 hobj
        exact hall x (List.mem_cons_of_mem _ hx) kvs0 hkvs0 commits0 hcl0
          c hc0 ckvs0 hobj
    · rw [hcc]
      constructor
      · intro hfalse
        simp at hfalse
      · intro hall
        have := hall (pn, JValue.obj kvs) (List.mem_cons_self _ _) kvs rfl
          commits hcl
        rw [(checkCommitList_eq_true commits hcs).mpr this] at hcc
        simp at hcc

/-- C3 is false as stated: `check_changelog_schema` rejects the empty
artifact, for which the per-commit property holds vacuously. -/
theorem claim_check_changelog_schema_counterexample :
    check_changelog_schema ([] : List (String × JValue)) = some false ∧
    check_changelog_schema ([] : List (String × JValue)) ≠ some true :=
  ⟨rfl, by decide⟩

/-- C3 (amended): for every artifact object of the standard shape
(each repository mapping to an object whose `Commits` key holds an
array of objects), `check_changelog_schema` accepts exactly the
non-empty artifacts all of whose commits pass `check_commit_schema`;
the empty artifact is rejected. -/
theorem claim_check_changelog_schema (data : List (String × JValue))
    (hs : ∀ p ∈ data, ∃ kvs, p.2 = JValue.obj kvs ∧
            ∃ commits, kvs.lookup "Commits" = some (JValue.arr commits) ∧
              ∀ c ∈ commits, ∃ ckvs, c = JValue.obj ckvs) :
    check_changelog_schema data = some true ↔
      (data ≠ [] ∧
       ∀ p ∈ data, ∀ kvs, p.2 = JValue.obj kvs →
         ∀ commits, kvs.lookup "Commits" = some (JValue.arr commits) →
           ∀ c ∈ commits, ∀ ckvs, c = JValue.obj ckvs →
             check_commit_schema ckvs = true) := by
  rw [check_changelog_schema]
  by_cases hd : data.length = 0
  · rw [if_pos hd]
    have hnil : data = [] := List.length_eq_zero.mp hd
    subst hnil
    simp
  · rw [if_neg hd, checkRepoList_eq_true data hs]
    have hne : data ≠ [] := by
      intro hnil
      subst hnil
      simp at hd
    simp [hne]

/-- Witness for C3 at a concrete one-repository artifact holding one
schema-valid commit. -/
theorem claim_check_changelog_schema_witness :
    check_changelog_schema
        [("cos/repoA", JValue.obj [("Commits", JValue.arr [JValue.obj
            [("SHA", JValue.str "abc"), ("AuthorName", JValue.str "an"),
             ("CommitterName", JValue.str "cn"),
             ("Subject", JValue.str "subj"),
             ("Bugs", JValue.arr []), ("CommitTime", JValue.str "t"),
             ("ReleaseNote", JValue.str "")]])])] = some true := by
  refine (claim_check_changelog_schema _ ?_).mpr ⟨by simp, ?_⟩
  · intro p hp
    simp only [List.mem_singleton] at hp
    subst hp
    refine ⟨_, rfl, _, rfl, ?_⟩
    intro c hc
    simp only [List.mem_singleton] at hc
    subst hc
    exact ⟨_, rfl⟩
  · intro p hp kvs hkvs commits hcl c hc ckvs hobj
    simp only [List.mem_singleton] at hp
    subst hp
    simp only at hkvs
    injection hkvs with h0
    subst h0
    rw [show List.lookup "Commits"
          [("Commits", JValue.arr [JValue.obj
            [("SHA", JValue.str "abc"), ("AuthorName", JValue.str "an"),
             ("CommitterName", JValue.str "cn"),
             ("Subject", JValue.str "subj"),
             ("Bugs", JValue.arr []), ("CommitTime", JValue.str "t"),
             ("ReleaseNote", JValue.str "")]])] = some (JValue.arr [JValue.obj
            [("SHA", JValue.str "abc"), ("AuthorName", JValue.str "an"),
             ("CommitterName", JValue.str "cn"),
             ("Subject", JValue.str "subj"),
             ("Bugs", JValue.arr []), ("CommitTime", JValue.str "t"),
             ("ReleaseNote", JValue.str "")]]) from rfl] at hcl
    injection hcl with h1
    injection h1 with h2
    subst h2
    simp only [List.mem_singleton] at hc
    subst hc
    injection hobj with h3
    subst h3
    rfl

end CosTools
